import Mathlib

/-!
A shallow embedding of the FilecoinSyncer class of `account.js` and of the
module-level incremental-sync driver `add`.  JS numbers holding record
counts are modeled as `Int`, the two MySQL tables as lists of rows, the
remote feed as an oracle function, and `DECIMAL(36,18)` amounts as `ℚ`.
-/

namespace FilecoinSyncer

/-- Model of the per-element transform of normalizeAddresses
(account.js line 36): `addr.startsWith('f0') ? addr : 'f0' + addr.slice(1)`.
JS strings are modeled as lists of characters here, so that their character
structure can be reasoned about directly. -/
def normalizeAddress (addr : List Char) : List Char :=
  if addr.take 2 = ['f', '0'] then addr else 'f' :: '0' :: addr.drop 1

/-- Model of FilecoinSyncer.normalizeAddresses (account.js lines 34-38). -/
def normalizeAddresses (addresses : List (List Char)) : List (List Char) :=
  addresses.map normalizeAddress

/-- Model of `atto.toString().replace(/\D/g, '')` (account.js line 272):
remove every character that is not an ASCII decimal digit. -/
def stripNonDigits (s : String) : String :=
  ⟨s.data.filter Char.isDigit⟩

/-- Model of `BigInt(str)` on a string of decimal digits; the empty string
gives 0, exactly as `BigInt('')` evaluates to `0n` in JS. -/
def digitsToNat (s : String) : Nat :=
  s.data.foldl (fun n c => n * 10 + (c.toNat - 48)) 0

/-- Model of FilecoinSyncer.attoToFil (account.js lines 270-277):
`Number(bigVal / 10n**18n) + Number(bigVal % 10n**18n) / 1e18`.
BigInt division and modulus are Nat division and modulus.  The JS float
arithmetic is modeled exactly over `ℚ`; at the values named by the spec the
float results are exactly representable (both `5 * 10 ^ 17` and `10 ^ 18`
are of the form `m * 2 ^ e` with `m < 2 ^ 53`), so the model and the code
agree there.  The catch branch (`return 0`) is unreachable for string
inputs because the digit-stripped string is always a valid BigInt literal. -/
def attoToFil (atto : String) : ℚ :=
  ((digitsToNat (stripNonDigits atto) / 10 ^ 18 : ℕ) : ℚ) +
    ((digitsToNat (stripNonDigits atto) % 10 ^ 18 : ℕ) : ℚ) / (10 : ℚ) ^ 18

/-- Model of the `direction ENUM('in','out')` column. -/
inductive Direction where
  | dirIn
  | dirOut
deriving DecidableEq, Repr

/-- One raw transfer entry of the remote feed:
`{ from, to, value, height, timestamp, type, message }`.  A missing or
falsy JS `type` is modeled by the empty string. -/
structure Transfer where
  message : String
  height : Nat
  timestamp : Nat
  type : String
  value : String
  fromAddr : String
  toAddr : String
deriving DecidableEq, Repr

/-- One row of the `fil_transfers` table.  The DATETIME(3) column is
modeled as milliseconds since the epoch, the value produced by
`new Date(t.timestamp * 1000)`. -/
structure Row where
  cid : String
  from_addr : String
  to_addr : String
  value : ℚ
  height : Nat
  direction : Direction
  timestamp : Nat
  type : String
deriving DecidableEq, Repr

/-- The database state seen by one FilecoinSyncer instance, plus the
instance's `uniqueIdCounter`.  `rollbacks` counts the batch inserts that
failed and were rolled back; each corresponds to one logged insert-failure
error in saveTransfers' catch block. -/
structure SyncState where
  filTransfers : List Row
  filLastCount : List (String × Int)
  uidCounter : Nat
  rollbacks : Nat
deriving DecidableEq, Repr

/-- Model of the template literal building the `cid` primary key
(account.js line 187); `now` is the value of `Date.now()` during the batch
and `uid` the value returned by generateUniqueId. -/
def generateCid (t : Transfer) (now uid : Nat) : String :=
  "unknown_" ++ t.message ++ "_" ++ toString t.height ++ "_" ++
    toString t.timestamp ++ "_" ++ t.type ++ "_" ++ toString now ++ "_" ++ toString uid

/-- One element of the `values` array built in saveTransfers
(account.js lines 186-195). -/
def mkRow (address : String) (t : Transfer) (now uid : Nat) : Row where
  cid := generateCid t now uid
  from_addr := t.fromAddr
  to_addr := t.toAddr
  value := attoToFil t.value
  height := t.height
  direction := if t.fromAddr = address then .dirOut else .dirIn
  timestamp := t.timestamp * 1000
  type := if t.type = "" then "unknown" else t.type

/-- The `transfers.map(...)` of saveTransfers with generateUniqueId's
post-incremented counter threaded through; returns the built rows and the
counter value after the batch. -/
def buildRows (address : String) (now : Nat) : List Transfer → Nat → List Row × Nat
  | [], c => ([], c)
  | t :: ts, c =>
    let rest := buildRows address now ts (c + 1)
    (mkRow address t now c :: rest.1, rest.2)

/-- MySQL semantics of the multi-row `INSERT INTO fil_transfers ... VALUES ?`
statement (account.js lines 197-202) against a table whose primary key is
`cid`: the statement succeeds, appending every row, iff no inserted cid
collides with an existing row or with another inserted row; otherwise it
raises a duplicate-key error and the statement inserts nothing. -/
def insertValues (rows : List Row) (table : List Row) : Option (List Row) :=
  if (rows.map Row.cid).Nodup ∧ ∀ c ∈ rows.map Row.cid, c ∉ table.map Row.cid then
    some (table ++ rows)
  else
    none

/-- Model of FilecoinSyncer.saveTransfers (account.js lines 179-212): an
empty batch returns immediately; otherwise the rows are built (advancing
the unique-id counter as a side effect of the map), inserted inside one
transaction, and on a duplicate-key error the transaction is rolled back
and the error is caught and logged, never rethrown. -/
def saveTransfers (address : String) (transfers : List Transfer) (now : Nat)
    (s : SyncState) : SyncState :=
  if transfers = [] then s
  else
    let br := buildRows address now transfers s.uidCounter
    match insertValues br.1 s.filTransfers with
    | some table => { s with filTransfers := table, uidCounter := br.2 }
    | none => { s with uidCounter := br.2, rollbacks := s.rollbacks + 1 }

/-- Model of the `select last_count from fil_last_count where address = ?`
lookup used by selectTotalCount (account.js lines 236-249). -/
def lookupCount (address : String) : List (String × Int) → Option Int
  | [] => none
  | (a, c) :: tl => if a = address then some c else lookupCount address tl

/-- Model of FilecoinSyncer.updateTotalCount's
`UPDATE fil_last_count set last_count = ? where address = ?`
(account.js lines 251-268): every row whose key matches is updated; when no
row matches, the statement changes nothing (it does not insert). -/
def updateTotalCount (address : String) (totalCount : Int)
    (tbl : List (String × Int)) : List (String × Int) :=
  tbl.map fun p => if p.1 = address then (p.1, totalCount) else p

/-- Model of FilecoinSyncer.saveTotalCount's
`INSERT INTO fil_last_count (address, last_count) VALUES (?, ?)`
(account.js lines 215-234): a plain INSERT, so a pre-existing row for the
address raises a duplicate-key error, which is rolled back and caught,
leaving the table unchanged.  The inserted count (obtained by the enclosed
getTotalCount call) is passed in as a parameter. -/
def saveTotalCount (address : String) (totalCount : Int)
    (tbl : List (String × Int)) : List (String × Int) :=
  match lookupCount address tbl with
  | some _ => tbl
  | none => tbl ++ [(address, totalCount)]

/-- SQL `sum(value)` over a set of rows: NULL (modeled as `none`) when the
set is empty, otherwise the sum. -/
def sumValues (rows : List Row) : Option ℚ :=
  if rows = [] then none else some ((rows.map Row.value).sum)

/-- Model of FilecoinSyncer.selectTransRecieve (account.js lines 327-340):
returns `result[0][0].total` with no fallback, so an account with no
matching rows yields SQL NULL (`none`), unlike its three siblings below. -/
def selectTransRecieve (address : String) (rows : List Row) : Option ℚ :=
  sumValues (rows.filter fun r => r.type == "receive" && r.to_addr == address)

/-- Model of FilecoinSyncer.selectTransSend (account.js lines 343-356):
`result[0][0].total || 0` maps SQL NULL to the number 0. -/
def selectTransSend (address : String) (rows : List Row) : ℚ :=
  (sumValues (rows.filter fun r => r.type == "send" && r.from_addr == address)).getD 0

/-- Model of FilecoinSyncer.selectTransProduce (account.js lines 359-372). -/
def selectTransProduce (address : String) (rows : List Row) : ℚ :=
  (sumValues (rows.filter fun r => r.type == "reward" && r.to_addr == address)).getD 0

/-- Model of FilecoinSyncer.selectTransBurn (account.js lines 375-388). -/
def selectTransBurn (address : String) (rows : List Row) : ℚ :=
  (sumValues (rows.filter fun r => r.type == "burn" && r.from_addr == address)).getD 0

/-- JS values that FilecoinSyncer.getTotalCount can return: a number, or
the empty array produced by its catch branch. -/
inductive JsValue where
  | num (n : Int)
  | emptyArr
deriving DecidableEq, Repr

/-- Shape of `response.data` for the transfers endpoint; `none` fields
model JS `undefined`. -/
structure RespData where
  totalCount : Option Int
  transfers : Option (List Transfer)
deriving DecidableEq, Repr

/-- Outcome of the axios GET inside getTotalCount: either the promise
rejects (network failure, timeout) or it resolves and `response.data` is
possibly undefined. -/
inductive ApiResponse where
  | failure (msg : String)
  | success (data : Option RespData)
deriving DecidableEq, Repr

/-- Model of FilecoinSyncer.getTotalCount (account.js lines 153-170):
missing `data` or a falsy `totalCount` (absent or 0) yields the number 0; a
non-zero count is returned as a number; but the catch branch executes
`return []`, producing the empty array rather than a number. -/
def getTotalCount : ApiResponse → JsValue
  | .failure _ => .emptyArr
  | .success none => .num 0
  | .success (some d) =>
    match d.totalCount with
    | none => .num 0
    | some c => if c = 0 then .num 0 else .num c

/-- The collaborators awaited inside addSync, together with their ability
to throw: each returns its result and `some errorMessage` when it throws.
The faithful implementations below never throw (each catches internally);
arbitrary values of this structure model arbitrary collaborator behaviour
for the fault-isolation property. -/
structure Ops where
  getTransfers : String → Nat → Int → List Transfer × Option String
  saveTransfers : String → List Transfer → SyncState → SyncState × Option String
  updateTotalCount : String → Int → SyncState → SyncState × Option String

/-- Observable outcome of one addSync call: the final state, the trace of
page requests (page index, requested page size) issued to getTransfers,
the final syncedCount, and the exception caught by addSync's catch block.
addSync itself always returns normally. -/
structure PassOut where
  s : SyncState
  requests : List (Nat × Int)
  synced : Int
  err : Option String
deriving DecidableEq, Repr

/-- The TypeError raised by the `logger.warn(...)` call on the zero-record
branch (account.js line 112): the logger object defines only info, error
and debug, so `logger.warn` is undefined and calling it throws. -/
def warnError : String := "TypeError: logger.warn is not a function"

/-- The `for (let page = 0; page < totalPages; page++)` loop of addSync
(account.js lines 105-120), recursing on the number of remaining pages.
A thrown error (from a collaborator, or the warn TypeError reached on an
empty page before the `break` statement) aborts the loop, carrying the
state mutated so far; note that `syncedCount += transfers.length` runs
after saveTransfers, whether or not that call's transaction committed. -/
def addSyncLoop (ops : Ops) (address : String) (pageSize : Nat) (needed : Int) :
    Nat → Nat → Int → SyncState → PassOut
  | 0, _, synced, s => ⟨s, [], synced, none⟩
  | pagesLeft + 1, page, synced, s =>
    let currentPageSize : Int := min (pageSize : Int) (needed - synced)
    match ops.getTransfers address page currentPageSize with
    | (_, some e) => ⟨s, [(page, currentPageSize)], synced, some e⟩
    | (transfers, none) =>
      if transfers = [] then ⟨s, [(page, currentPageSize)], synced, some warnError⟩
      else
        match ops.saveTransfers address transfers s with
        | (s', some e) => ⟨s', [(page, currentPageSize)], synced, some e⟩
        | (s', none) =>
          let rest := addSyncLoop ops address pageSize needed pagesLeft (page + 1)
            (synced + transfers.length) s'
          ⟨rest.s, (page, currentPageSize) :: rest.requests, rest.synced, rest.err⟩

/-- Model of FilecoinSyncer.addSync (account.js lines 93-127): compute
`needSyncCount = totalCount - localCount`; return immediately when it is
not positive; otherwise run `Math.ceil(needSyncCount / pageSize)` loop
iterations and finally update the checkpoint row — unless an exception was
thrown, in which case the catch block logs it and the checkpoint update is
skipped. -/
def addSync (ops : Ops) (address : String) (localCount totalCount : Int)
    (pageSize : Nat) (s : SyncState) : PassOut :=
  let needSyncCount := totalCount - localCount
  if needSyncCount ≤ 0 then ⟨s, [], 0, none⟩
  else
    let totalPages : Nat := (needSyncCount.toNat + pageSize - 1) / pageSize
    let lo := addSyncLoop ops address pageSize needSyncCount totalPages 0 0 s
    match lo.err with
    | some e => ⟨lo.s, lo.requests, lo.synced, some e⟩
    | none =>
      match ops.updateTotalCount address totalCount lo.s with
      | (s', some e) => ⟨s', lo.requests, lo.synced, some e⟩
      | (s', none) => ⟨s', lo.requests, lo.synced, none⟩

/-- The faithful collaborators of a live pass: getTransfers soft-fails to a
list (the feed oracle returns whatever list the network interaction
produced, possibly empty), saveTransfers and updateTotalCount are the
database models above; none of them lets an exception escape, since each
catches internally in the source. -/
def concreteOps (feed : String → Nat → Int → List Transfer) (now : Nat) : Ops where
  getTransfers := fun a p sz => (feed a p sz, none)
  saveTransfers := fun a ts s => (saveTransfers a ts now s, none)
  updateTotalCount := fun a c s =>
    ({ s with filLastCount := updateTotalCount a c s.filLastCount }, none)

/-- Model of the module-level driver `add` (account.js lines 430-452): an
empty address list is a fatal configuration error (`process.exit(1)`,
exit code 1); otherwise each address is processed in order with addSync —
whose catch swallows every per-account error — and the process exits 0.
The local and remote counts read by selectTotalCount and getTotalCount
(both of which catch their own errors) are supplied by oracles.  Returns
(final state, exit code, number of addresses processed). -/
def add (ops : Ops) (locals nets : String → Int) (pageSize : Nat)
    (addresses : List String) (s : SyncState) : SyncState × Nat × Nat :=
  if addresses = [] then (s, 1, 0)
  else
    let r := addresses.foldl
      (fun acc a => ((addSync ops a (locals a) (nets a) pageSize acc.1).s, acc.2 + 1))
      (s, 0)
    (r.1, 0, r.2)

/-- Concrete transfer records used in witnesses and counterexamples. -/
def tA : Transfer :=
  ⟨"bafyA", 10, 1700000000, "send", "1000000000000000000", "f01", "f099"⟩

/-- Second concrete transfer record. -/
def tB : Transfer :=
  ⟨"bafyB", 11, 1700000100, "reward", "1500000000000000000", "f098", "f01"⟩

/-- Third concrete transfer record. -/
def tC : Transfer :=
  ⟨"bafyC", 12, 1700000200, "burn", "7", "f01", "f097"⟩

/-- State with an existing checkpoint row of 2 for account f01. -/
def wS1 : SyncState := ⟨[], [("f01", 2)], 0, 0⟩

/-- Feed oracle that answers every page request with the same 3 records. -/
def wfeed : String → Nat → Int → List Transfer := fun _ _ _ => [tA, tB, tC]

/-- State with a checkpoint row of 0 for account f01. -/
def s0C2 : SyncState := ⟨[], [("f01", 0)], 0, 0⟩

/-- Feed oracle that returns only 3 records for page 0 (fewer than the 100
requested) and no records for any later page. -/
def feedC2 : String → Nat → Int → List Transfer :=
  fun _ p _ => if p = 0 then [tA, tB, tC] else []

/-- State whose fil_transfers table already holds the exact row that
saveTransfers will regenerate for tA at Date.now() = 5 with counter 0. -/
def sDup : SyncState := ⟨[mkRow "f01" tA 5 0], [], 0, 0⟩

/-- Collaborators that throw on every database or network interaction. -/
def opsW : Ops :=
  ⟨fun _ _ _ => ([], some "socket hang up"),
   fun _ _ s => (s, some "db down"),
   fun _ _ s => (s, some "db down")⟩

/-- Per-address local counts for the fault-isolation witness. -/
def localsW : String → Int := fun _ => 0

/-- Per-address remote counts for the fault-isolation witness: account f01
has 150 unsynced records (so its pass attempts pages and throws), account
f02 is up to date (so its pass completes successfully). -/
def netsW : String → Int := fun a => if a = "f01" then 150 else 0

end FilecoinSyncer

namespace FilecoinSyncer

theorem normalizeAddress_take_two (a : List Char) :
    (normalizeAddress a).take 2 = ['f', '0'] := by
  unfold normalizeAddress
  split
  · assumption
  · rfl

theorem normalizeAddress_idem (a : List Char) :
    normalizeAddress (normalizeAddress a) = normalizeAddress a := by
  by_cases hc : a.take 2 = ['f', '0'] <;> simp [normalizeAddress, hc]

/-- C10: every output of normalizeAddresses starts with the two characters
f0 — an address already starting with f0 is returned unchanged, any other
has its first character replaced by the two-character string f0 — and
applying normalizeAddresses twice equals applying it once. -/
theorem normalizeAddresses_spec (addresses : List (List Char))
    (_h : ∀ a ∈ addresses, a ≠ []) :
    (∀ b ∈ normalizeAddresses addresses, b.take 2 = ['f', '0'])
    ∧ normalizeAddresses (normalizeAddresses addresses) = normalizeAddresses addresses
    ∧ (∀ a ∈ addresses, a.take 2 = ['f', '0'] → normalizeAddress a = a)
    ∧ (∀ a ∈ addresses, a.take 2 ≠ ['f', '0'] →
        normalizeAddress a = 'f' :: '0' :: a.drop 1) := by
  refine ⟨?_, ?_, ?_, ?_⟩
  · intro b hb
    rcases List.mem_map.mp hb with ⟨a, _, rfl⟩
    exact normalizeAddress_take_two a
  · unfold normalizeAddresses
    rw [List.map_map]
    exact List.map_congr_left fun a _ => normalizeAddress_idem a
  · intro a _ ha
    unfold normalizeAddress
    rw [if_pos ha]
  · intro a _ ha
    unfold normalizeAddress
    rw [if_neg ha]

/-- Witness for normalizeAddresses_spec at the concrete two-address list
made of f01 (already normalized) and x9 (first character replaced). -/
theorem normalizeAddresses_spec_witness :
    (∀ a ∈ [['f', '0', '1'], ['x', '9']], a ≠ ([] : List Char))
    ∧ ((∀ b ∈ normalizeAddresses [['f', '0', '1'], ['x', '9']], b.take 2 = ['f', '0'])
      ∧ normalizeAddresses (normalizeAddresses [['f', '0', '1'], ['x', '9']])
          = normalizeAddresses [['f', '0', '1'], ['x', '9']]
      ∧ (∀ a ∈ [['f', '0', '1'], ['x', '9']], a.take 2 = ['f', '0'] → normalizeAddress a = a)
      ∧ (∀ a ∈ [['f', '0', '1'], ['x', '9']], a.take 2 ≠ ['f', '0'] →
          normalizeAddress a = 'f' :: '0' :: a.drop 1)) :=
  ⟨by decide, normalizeAddresses_spec [['f', '0', '1'], ['x', '9']] (by decide)⟩

/-- C9: the normalizer maps the two reference values to 1 and 1.5, maps an
input without digits (such as not-a-number) to 0 without raising, and
every result is non-negative. -/
theorem attoToFil_spec :
    attoToFil "1000000000000000000" = 1
    ∧ attoToFil "1500000000000000000" = 3 / 2
    ∧ attoToFil "not-a-number" = 0
    ∧ ∀ s : String, 0 ≤ attoToFil s := by
  refine ⟨?_, ?_, ?_, fun s => ?_⟩
  · unfold attoToFil
    rw [show digitsToNat (stripNonDigits "1000000000000000000") = 10 ^ 18 from by decide]
    norm_num
  · unfold attoToFil
    rw [show digitsToNat (stripNonDigits "1500000000000000000") = 15 * 10 ^ 17 from by decide]
    norm_num
  · unfold attoToFil
    rw [show digitsToNat (stripNonDigits "not-a-number") = 0 from by decide]
    norm_num
  · unfold attoToFil
    positivity

/-- C4: evaluation at the failing input, an account with no matching rows:
selectTransRecieve (type receive, role recipient) returns SQL NULL
(modeled as none) because it lacks the fallback its three siblings have,
while the reward, send and burn aggregates do return 0. -/
theorem selectTransRecieve_null_on_empty :
    selectTransRecieve "f0nobody" [] = none
    ∧ selectTransProduce "f0nobody" [] = 0
    ∧ selectTransSend "f0nobody" [] = 0
    ∧ selectTransBurn "f0nobody" [] = 0 :=
  ⟨rfl, rfl, rfl, rfl⟩

/-- C5: evaluation at the failing input: when the axios request rejects
(network failure or timeout), getTotalCount returns the empty array from
its catch block instead of the integer 0; the malformed and absent-count
responses do yield the number 0. -/
theorem getTotalCount_network_failure :
    getTotalCount (.failure "timeout of 20000ms exceeded") = .emptyArr
    ∧ getTotalCount (.success (some ⟨none, none⟩)) = .num 0
    ∧ getTotalCount (.success none) = .num 0 :=
  ⟨rfl, rfl, rfl⟩


theorem addSync_if_upToDate (ops : Ops) (address : String)
    (localCount totalCount : Int) (pageSize : Nat) (s : SyncState)
    (h : totalCount - localCount ≤ 0) :
    addSync ops address localCount totalCount pageSize s = ⟨s, [], 0, none⟩ := by
  simp only [addSync]
  rw [if_pos h]

/-- C6: when needSyncCount = remoteTotal - localTotal is not positive, the
pass returns before any page fetch, any insert and any checkpoint write,
for every collaborator behaviour; hence a second identical pass on the
resulting state is again the identity. -/
theorem addSync_upToDate_noop (ops : Ops) (address : String)
    (localCount totalCount : Int) (pageSize : Nat) (s : SyncState)
    (h : totalCount - localCount ≤ 0) :
    addSync ops address localCount totalCount pageSize s = ⟨s, [], 0, none⟩
    ∧ addSync ops address localCount totalCount pageSize
        (addSync ops address localCount totalCount pageSize s).s = ⟨s, [], 0, none⟩ := by
  have h1 := addSync_if_upToDate ops address localCount totalCount pageSize s h
  refine ⟨h1, ?_⟩
  rw [h1]
  exact addSync_if_upToDate ops address localCount totalCount pageSize s h

/-- Witness for addSync_upToDate_noop with remote total equal to the local
checkpoint (5 = 5) on a concrete state. -/
theorem addSync_upToDate_noop_witness :
    ((5 : Int) - 5 ≤ 0)
    ∧ (addSync (concreteOps wfeed 7) "f01" 5 5 100 wS1 = ⟨wS1, [], 0, none⟩
      ∧ addSync (concreteOps wfeed 7) "f01" 5 5 100
          (addSync (concreteOps wfeed 7) "f01" 5 5 100 wS1).s = ⟨wS1, [], 0, none⟩) :=
  ⟨by decide, addSync_upToDate_noop (concreteOps wfeed 7) "f01" 5 5 100 wS1 (by decide)⟩

theorem add_foldl_count (ops : Ops) (locals nets : String → Int) (pageSize : Nat) :
    ∀ (addresses : List String) (p : SyncState × Nat),
      (addresses.foldl
        (fun acc a => ((addSync ops a (locals a) (nets a) pageSize acc.1).s, acc.2 + 1))
        p).2 = p.2 + addresses.length := by
  intro addresses
  induction addresses with
  | nil => intro p; simp
  | cons a tl ih =>
    intro p
    rw [List.foldl_cons, ih]
    simp
    omega

/-- C7: whatever the remote-feed and database collaborators do — including
throwing on every call — the driver add processes every account, because
addSync's catch consumes each account's error, and the process exits 0;
only the empty-configuration startup path exits 1. -/
theorem add_fault_isolation (ops : Ops) (locals nets : String → Int)
    (pageSize : Nat) (addresses : List String) (s : SyncState)
    (h : addresses ≠ []) :
    (add ops locals nets pageSize addresses s).2.1 = 0
    ∧ (add ops locals nets pageSize addresses s).2.2 = addresses.length := by
  simp only [add]
  rw [if_neg h]
  refine ⟨rfl, ?_⟩
  have := add_foldl_count ops locals nets pageSize addresses (s, 0)
  simpa using this

/-- Witness for add_fault_isolation: collaborators that throw on every
network and database call, a first account with 150 unsynced records
(whose pass throws mid-pass) and a second up-to-date account; both are
processed and the exit code is 0. -/
theorem add_fault_isolation_witness :
    (["f01", "f02"] ≠ ([] : List String))
    ∧ (add opsW localsW netsW 100 ["f01", "f02"] wS1).2.1 = 0
    ∧ (add opsW localsW netsW 100 ["f01", "f02"] wS1).2.2 = ["f01", "f02"].length :=
  ⟨by decide,
   (add_fault_isolation opsW localsW netsW 100 ["f01", "f02"] wS1 (by decide)).1,
   (add_fault_isolation opsW localsW netsW 100 ["f01", "f02"] wS1 (by decide)).2⟩

theorem lookupCount_update_some (address : String) (c : Int) :
    ∀ (tbl : List (String × Int)) (v : Int), lookupCount address tbl = some v →
      lookupCount address (updateTotalCount address c tbl) = some c := by
  intro tbl
  induction tbl with
  | nil => intro v h; cases h
  | cons p tl ih =>
    intro v h
    obtain ⟨a, w⟩ := p
    have hstep : updateTotalCount address c ((a, w) :: tl)
        = (if a = address then (a, c) else (a, w)) :: updateTotalCount address c tl := by
      simp [updateTotalCount]
    rw [hstep]
    by_cases ha : a = address
    · rw [if_pos ha]
      simp [lookupCount, ha]
    · rw [if_neg ha]
      simp only [lookupCount, if_neg ha] at h ⊢
      exact ih v h

theorem lookupCount_none_keys (address : String) :
    ∀ (tbl : List (String × Int)), lookupCount address tbl = none →
      ∀ p ∈ tbl, p.1 ≠ address := by
  intro tbl
  induction tbl with
  | nil => intro _ p hp; cases hp
  | cons q tl ih =>
    intro h p hp
    obtain ⟨a, w⟩ := q
    by_cases ha : a = address
    · simp [lookupCount, ha] at h
    · simp only [lookupCount, if_neg ha] at h
      rcases List.mem_cons.mp hp with rfl | hmem
      · exact ha
      · exact ih h p hmem

theorem updateTotalCount_map_fst (address : String) (c : Int)
    (tbl : List (String × Int)) :
    (updateTotalCount address c tbl).map Prod.fst = tbl.map Prod.fst := by
  unfold updateTotalCount
  rw [List.map_map]
  refine List.map_congr_left fun p _ => ?_
  by_cases h : p.1 = address <;> simp [h]

theorem updateTotalCount_of_absent (address : String) (c : Int)
    (tbl : List (String × Int)) (h : lookupCount address tbl = none) :
    updateTotalCount address c tbl = tbl := by
  unfold updateTotalCount
  have hk := lookupCount_none_keys address tbl h
  calc tbl.map (fun p => if p.1 = address then (p.1, c) else p)
      = tbl.map id := List.map_congr_left fun p hp => by
        rw [if_neg (hk p hp)]; rfl
    _ = tbl := List.map_id tbl

/-- C8 counterexample: neither checkpoint write is insert-or-update.  With
no row present, updateTotalCount changes nothing, so the checkpoint is
still absent afterwards; with a row present, saveTotalCount leaves the old
value 1 in place instead of writing 9. -/
theorem checkpoint_not_upsert :
    updateTotalCount "f01" 7 [] = []
    ∧ lookupCount "f01" (updateTotalCount "f01" 7 []) = none
    ∧ saveTotalCount "f0a" 9 [("f0a", 1)] = [("f0a", 1)]
    ∧ lookupCount "f0a" (saveTotalCount "f0a" 9 [("f0a", 1)]) = some 1 := by
  refine ⟨rfl, rfl, rfl, rfl⟩

/-- C8 amended: the checkpoint write is split into an insert-only
operation (saveTotalCount: inserts when absent; when a row exists its
INSERT raises a duplicate-key error that is rolled back and caught,
leaving the old value) and an update-only operation (updateTotalCount:
rewrites the row when present, a no-op when absent).  Both preserve the
single-row-per-account key invariant. -/
theorem checkpoint_write_split (address : String) (c : Int)
    (tbl : List (String × Int)) :
    (lookupCount address tbl = none →
      saveTotalCount address c tbl = tbl ++ [(address, c)]
      ∧ updateTotalCount address c tbl = tbl)
    ∧ (∀ v, lookupCount address tbl = some v →
      saveTotalCount address c tbl = tbl
      ∧ lookupCount address (updateTotalCount address c tbl) = some c)
    ∧ ((tbl.map Prod.fst).Nodup →
      ((saveTotalCount address c tbl).map Prod.fst).Nodup
      ∧ ((updateTotalCount address c tbl).map Prod.fst).Nodup) := by
  refine ⟨?_, ?_, ?_⟩
  · intro h
    constructor
    · unfold saveTotalCount
      rw [h]
    · exact updateTotalCount_of_absent address c tbl h
  · intro v h
    constructor
    · unfold saveTotalCount
      rw [h]
    · exact lookupCount_update_some address c tbl v h
  · intro hnd
    constructor
    · unfold saveTotalCount
      cases hl : lookupCount address tbl with
      | some v => exact hnd
      | none =>
        have hk := lookupCount_none_keys address tbl hl
        simp only [List.map_append, List.map_cons, List.map_nil]
        rw [List.nodup_append]
        refine ⟨hnd, List.nodup_singleton address, ?_⟩
        intro x hx hx1
        rcases List.mem_map.mp hx with ⟨p, hp, rfl⟩
        rcases List.mem_singleton.mp hx1
        exact hk p hp rfl
    · rw [updateTotalCount_map_fst]
      exact hnd

/-- Witness for checkpoint_write_split at a concrete absent key (f0c over
an empty table) and a concrete present key (f0b with old value 3). -/
theorem checkpoint_write_split_witness :
    (saveTotalCount "f0c" 4 [] = [] ++ [("f0c", 4)]
      ∧ updateTotalCount "f0c" 4 [] = [])
    ∧ (saveTotalCount "f0b" 7 [("f0b", 3)] = [("f0b", 3)]
      ∧ lookupCount "f0b" (updateTotalCount "f0b" 7 [("f0b", 3)]) = some 7) :=
  ⟨(checkpoint_write_split "f0c" 4 []).1 (by decide),
   (checkpoint_write_split "f0b" 7 [("f0b", 3)]).2.1 3 (by decide)⟩


theorem insertValues_dup (rows table : List Row)
    (h : ∃ r ∈ rows, r.cid ∈ table.map Row.cid) :
    insertValues rows table = none := by
  unfold insertValues
  rcases h with ⟨r, hr, hcid⟩
  have hneg : ¬((rows.map Row.cid).Nodup ∧ ∀ c ∈ rows.map Row.cid, c ∉ table.map Row.cid) := by
    rintro ⟨_, hfresh⟩
    exact hfresh r.cid (List.mem_map_of_mem Row.cid hr) hcid
  rw [if_neg hneg]

theorem saveTransfers_cases (address : String) (transfers : List Transfer)
    (now : Nat) (s : SyncState) (h : transfers ≠ []) :
    (insertValues (buildRows address now transfers s.uidCounter).1 s.filTransfers
        = some (s.filTransfers ++ (buildRows address now transfers s.uidCounter).1)
      ∧ (saveTransfers address transfers now s).filTransfers
        = s.filTransfers ++ (buildRows address now transfers s.uidCounter).1
      ∧ (saveTransfers address transfers now s).rollbacks = s.rollbacks)
    ∨ (insertValues (buildRows address now transfers s.uidCounter).1 s.filTransfers = none
      ∧ (saveTransfers address transfers now s).filTransfers = s.filTransfers
      ∧ (saveTransfers address transfers now s).rollbacks = s.rollbacks + 1) := by
  simp only [saveTransfers, if_neg h]
  cases hiv : insertValues (buildRows address now transfers s.uidCounter).1 s.filTransfers with
  | none =>
    right
    exact ⟨rfl, rfl, rfl⟩
  | some table =>
    left
    have htbl : table = s.filTransfers ++ (buildRows address now transfers s.uidCounter).1 := by
      unfold insertValues at hiv
      split at hiv
      · exact ((Option.some.injEq _ _).mp hiv).symm
      · cases hiv
    rw [htbl]
    exact ⟨rfl, rfl, rfl⟩

/-- C3 counterexample: with the fil_transfers table already holding the
cid that tA's row regenerates (Date.now() = 5, counter 0), saving the
batch made of tA and tB — where tB's cid is fresh — commits nothing: the
whole batch is rolled back (one logged insert failure) instead of
skipping the duplicate and inserting tB as the claim requires. -/
theorem saveTransfers_duplicate_rolls_back :
    (saveTransfers "f01" [tA, tB] 5 sDup).filTransfers.map Row.cid = [generateCid tA 5 0]
    ∧ (saveTransfers "f01" [tA, tB] 5 sDup).filTransfers.length = 1
    ∧ (saveTransfers "f01" [tA, tB] 5 sDup).rollbacks = 1
    ∧ generateCid tB 5 1 ∉ (saveTransfers "f01" [tA, tB] 5 sDup).filTransfers.map Row.cid
    ∧ generateCid tB 5 1 ∉ sDup.filTransfers.map Row.cid := by
  refine ⟨by decide, by decide, by decide, by decide, by decide⟩

/-- C3 amended: each batch passed to saveTransfers is committed
atomically — either every built row is appended or the table is left
unchanged — and a record whose generated primary id already exists in the
store makes the INSERT fail, rolling back the entire batch (the error is
caught and logged inside saveTransfers, so no exception escapes);
duplicates are not silently skipped. -/
theorem saveTransfers_atomic_rollback (address : String)
    (transfers : List Transfer) (now : Nat) (s : SyncState) :
    ((saveTransfers address transfers now s).filTransfers
        = s.filTransfers ++ (buildRows address now transfers s.uidCounter).1
      ∨ (saveTransfers address transfers now s).filTransfers = s.filTransfers)
    ∧ ((∃ r ∈ (buildRows address now transfers s.uidCounter).1,
          r.cid ∈ s.filTransfers.map Row.cid) →
        (saveTransfers address transfers now s).filTransfers = s.filTransfers
        ∧ (saveTransfers address transfers now s).rollbacks = s.rollbacks + 1) := by
  by_cases h : transfers = []
  · subst h
    refine ⟨Or.inr rfl, ?_⟩
    rintro ⟨r, hr, -⟩
    simp [buildRows] at hr
  · rcases saveTransfers_cases address transfers now s h with
      ⟨hiv, hft, hrb⟩ | ⟨hiv, hft, hrb⟩
    · refine ⟨Or.inl hft, ?_⟩
      intro hdup
      rw [insertValues_dup _ _ hdup] at hiv
      cases hiv
    · exact ⟨Or.inr hft, fun _ => ⟨hft, hrb⟩⟩

/-- Witness for saveTransfers_atomic_rollback at the concrete
duplicate-containing batch of the counterexample. -/
theorem saveTransfers_atomic_rollback_witness :
    ((saveTransfers "f01" [tA, tB] 5 sDup).filTransfers
        = sDup.filTransfers ++ (buildRows "f01" 5 [tA, tB] sDup.uidCounter).1
      ∨ (saveTransfers "f01" [tA, tB] 5 sDup).filTransfers = sDup.filTransfers)
    ∧ ((saveTransfers "f01" [tA, tB] 5 sDup).filTransfers = sDup.filTransfers
      ∧ (saveTransfers "f01" [tA, tB] 5 sDup).rollbacks = sDup.rollbacks + 1) :=
  ⟨(saveTransfers_atomic_rollback "f01" [tA, tB] 5 sDup).1,
   (saveTransfers_atomic_rollback "f01" [tA, tB] 5 sDup).2 (by decide)⟩


theorem addSyncLoop_zero (ops : Ops) (address : String) (pageSize : Nat)
    (needed : Int) (page : Nat) (synced : Int) (s : SyncState) :
    addSyncLoop ops address pageSize needed 0 page synced s = ⟨s, [], synced, none⟩ := rfl

theorem addSyncLoop_cops_succ (feed : String → Nat → Int → List Transfer)
    (now : Nat) (address : String) (pageSize : Nat) (needed : Int)
    (pagesLeft page : Nat) (synced : Int) (s : SyncState) :
    addSyncLoop (concreteOps feed now) address pageSize needed (pagesLeft + 1) page synced s
      = (if feed address page (min (pageSize : Int) (needed - synced)) = [] then
          ⟨s, [(page, min (pageSize : Int) (needed - synced))], synced, some warnError⟩
        else
          ⟨(addSyncLoop (concreteOps feed now) address pageSize needed pagesLeft (page + 1)
              (synced + (feed address page (min (pageSize : Int) (needed - synced))).length)
              (saveTransfers address
                (feed address page (min (pageSize : Int) (needed - synced))) now s)).s,
            (page, min (pageSize : Int) (needed - synced)) ::
              (addSyncLoop (concreteOps feed now) address pageSize needed pagesLeft (page + 1)
                (synced + (feed address page (min (pageSize : Int) (needed - synced))).length)
                (saveTransfers address
                  (feed address page (min (pageSize : Int) (needed - synced))) now s)).requests,
            (addSyncLoop (concreteOps feed now) address pageSize needed pagesLeft (page + 1)
              (synced + (feed address page (min (pageSize : Int) (needed - synced))).length)
              (saveTransfers address
                (feed address page (min (pageSize : Int) (needed - synced))) now s)).synced,
            (addSyncLoop (concreteOps feed now) address pageSize needed pagesLeft (page + 1)
              (synced + (feed address page (min (pageSize : Int) (needed - synced))).length)
              (saveTransfers address
                (feed address page (min (pageSize : Int) (needed - synced))) now s)).err⟩) := by
  rw [addSyncLoop]
  rfl

theorem saveTransfers_filLastCount (address : String) (transfers : List Transfer)
    (now : Nat) (s : SyncState) :
    (saveTransfers address transfers now s).filLastCount = s.filLastCount := by
  by_cases h : transfers = []
  · simp [saveTransfers, h]
  · simp only [saveTransfers, if_neg h]
    cases insertValues (buildRows address now transfers s.uidCounter).1 s.filTransfers <;> rfl

theorem saveTransfers_rollbacks_le (address : String) (transfers : List Transfer)
    (now : Nat) (s : SyncState) :
    s.rollbacks ≤ (saveTransfers address transfers now s).rollbacks := by
  by_cases h : transfers = []
  · simp [saveTransfers, h]
  · simp only [saveTransfers, if_neg h]
    cases insertValues (buildRows address now transfers s.uidCounter).1 s.filTransfers
    · exact Nat.le_succ _
    · exact le_rfl


theorem mem_dropLast_cons {α : Type} (x : α) (l : List α) (pr : α)
    (h : pr ∈ (x :: l).dropLast) : pr = x ∨ pr ∈ l.dropLast := by
  cases l with
  | nil => simp [List.dropLast_single] at h
  | cons y t =>
    rw [List.dropLast_cons₂] at h
    exact List.mem_cons.mp h

theorem addSyncLoop_requests_bound (feed : String → Nat → Int → List Transfer)
    (now : Nat) (address : String) (pageSize : Nat) (needed : Int) :
    ∀ (pagesLeft page : Nat) (synced : Int) (s : SyncState),
      (addSyncLoop (concreteOps feed now) address pageSize needed
          pagesLeft page synced s).requests.length ≤ pagesLeft
      ∧ ∀ pr ∈ (addSyncLoop (concreteOps feed now) address pageSize needed
          pagesLeft page synced s).requests.dropLast, feed address pr.1 pr.2 ≠ [] := by
  intro pagesLeft
  induction pagesLeft with
  | zero =>
    intro page synced s
    rw [addSyncLoop_zero]
    exact ⟨Nat.le_refl 0, by intro pr hpr; cases hpr⟩
  | succ pl ih =>
    intro page synced s
    rw [addSyncLoop_cops_succ]
    by_cases hts : feed address page (min (pageSize : Int) (needed - synced)) = []
    · rw [if_pos hts]
      refine ⟨by simp, ?_⟩
      intro pr hpr
      simp [List.dropLast_single] at hpr
    · rw [if_neg hts]
      obtain ⟨ihlen, ihdl⟩ := ih (page + 1)
        (synced + (feed address page (min (pageSize : Int) (needed - synced))).length)
        (saveTransfers address
          (feed address page (min (pageSize : Int) (needed - synced))) now s)
      refine ⟨by simpa using Nat.succ_le_succ ihlen, ?_⟩
      intro pr hpr
      rcases mem_dropLast_cons _ _ _ hpr with rfl | hmem
      · exact hts
      · exact ihdl pr hmem

theorem addSync_requests (ops : Ops) (address : String) (localCount totalCount : Int)
    (pageSize : Nat) (s : SyncState) (h : ¬(totalCount - localCount ≤ 0)) :
    (addSync ops address localCount totalCount pageSize s).requests
      = (addSyncLoop ops address pageSize (totalCount - localCount)
          (((totalCount - localCount).toNat + pageSize - 1) / pageSize) 0 0 s).requests := by
  simp only [addSync]
  rw [if_neg h]
  rcases herr : (addSyncLoop ops address pageSize (totalCount - localCount)
      (((totalCount - localCount).toNat + pageSize - 1) / pageSize) 0 0 s).err with - | e
  · rcases hupd : ops.updateTotalCount address totalCount
        (addSyncLoop ops address pageSize (totalCount - localCount)
          (((totalCount - localCount).toNat + pageSize - 1) / pageSize) 0 0 s).s with ⟨s9, e9⟩
    cases e9 <;> rfl
  · rfl

/-- C2 counterexample: with remote total 200 and local total 0, page 0 is
requested with size 100 but the feed returns only 3 records (fewer than
requested, more than zero); the loop does not stop there — it requests
page 1 as well, so the request trace has two entries, not one. -/
theorem addSync_short_page_continues :
    (addSync (concreteOps feedC2 3) "f01" 0 200 100 s0C2).requests = [(0, 100), (1, 100)]
    ∧ (addSync (concreteOps feedC2 3) "f01" 0 200 100 s0C2).requests ≠ [(0, 100)]
    ∧ (addSync (concreteOps feedC2 3) "f01" 0 200 100 s0C2).err = some warnError
    ∧ lookupCount "f01"
        (addSync (concreteOps feedC2 3) "f01" 0 200 100 s0C2).s.filLastCount = some 0 := by
  refine ⟨by decide, by decide, by decide, by decide⟩

/-- C2 amended: the paging loop stops early only when a requested page
returns zero records (every non-final request in the trace received a
non-empty page); a page returning fewer records than requested but more
than zero does not stop the loop.  In all cases the loop makes at most
ceil(needSyncCount / pageSize) page requests, so it never re-requests
indefinitely, and addSync returns normally either way. -/
theorem addSync_paging_bound (feed : String → Nat → Int → List Transfer)
    (now : Nat) (address : String) (localCount totalCount : Int)
    (pageSize : Nat) (s : SyncState) :
    (addSync (concreteOps feed now) address localCount totalCount pageSize s).requests.length
      ≤ ((totalCount - localCount).toNat + pageSize - 1) / pageSize
    ∧ ∀ pr ∈ (addSync (concreteOps feed now) address localCount totalCount
        pageSize s).requests.dropLast, feed address pr.1 pr.2 ≠ [] := by
  by_cases h : totalCount - localCount ≤ 0
  · rw [addSync_if_upToDate _ _ _ _ _ _ h]
    exact ⟨Nat.zero_le _, by intro pr hpr; cases hpr⟩
  · rw [addSync_requests _ _ _ _ _ _ h]
    exact addSyncLoop_requests_bound feed now address pageSize (totalCount - localCount)
      (((totalCount - localCount).toNat + pageSize - 1) / pageSize) 0 0 s

/-- Witness for addSync_paging_bound at the concrete short-page feed: two
requests were made, within the bound of ceil(200 / 100) = 2 pages, and the
one non-final request received a non-empty page. -/
theorem addSync_paging_bound_witness :
    (addSync (concreteOps feedC2 3) "f01" 0 200 100 s0C2).requests.length
      ≤ (((200 : Int) - 0).toNat + 100 - 1) / 100
    ∧ ∀ pr ∈ (addSync (concreteOps feedC2 3) "f01" 0 200 100 s0C2).requests.dropLast,
        feedC2 "f01" pr.1 pr.2 ≠ [] :=
  addSync_paging_bound feedC2 3 "f01" 0 200 100 s0C2


theorem buildRows_length (address : String) (now : Nat) :
    ∀ (ts : List Transfer) (c : Nat), (buildRows address now ts c).1.length = ts.length := by
  intro ts
  induction ts with
  | nil => intro c; rfl
  | cons t tl ih => intro c; simp [buildRows, ih]

theorem addSyncLoop_full_run (feed : String → Nat → Int → List Transfer)
    (now : Nat) (address : String) (pageSize : Nat) (needed : Int)
    (hps : 0 < pageSize) :
    ∀ (pagesLeft page : Nat) (synced : Int) (s : SyncState),
      synced < needed →
      needed ≤ synced + (pagesLeft : Int) * (pageSize : Int) →
      (pagesLeft : Int) * (pageSize : Int) < needed - synced + (pageSize : Int) →
      (∀ pr ∈ (addSyncLoop (concreteOps feed now) address pageSize needed
          pagesLeft page synced s).requests,
          ((feed address pr.1 pr.2).length : Int) = pr.2) →
      (addSyncLoop (concreteOps feed now) address pageSize needed
          pagesLeft page synced s).synced = needed
      ∧ ((addSyncLoop (concreteOps feed now) address pageSize needed
          pagesLeft page synced s).requests.map Prod.snd).sum = needed - synced
      ∧ (addSyncLoop (concreteOps feed now) address pageSize needed
          pagesLeft page synced s).err = none
      ∧ (addSyncLoop (concreteOps feed now) address pageSize needed
          pagesLeft page synced s).s.filLastCount = s.filLastCount
      ∧ s.rollbacks ≤ (addSyncLoop (concreteOps feed now) address pageSize needed
          pagesLeft page synced s).s.rollbacks
      ∧ ((addSyncLoop (concreteOps feed now) address pageSize needed
          pagesLeft page synced s).s.rollbacks = s.rollbacks →
          (addSyncLoop (concreteOps feed now) address pageSize needed
            pagesLeft page synced s).s.filTransfers.length
            = s.filTransfers.length + (needed - synced).toNat) := by
  intro pagesLeft
  induction pagesLeft with
  | zero =>
    intro page synced s hlt hub _ _
    exfalso
    simp only [Nat.cast_zero, zero_mul, add_zero] at hub
    omega
  | succ pl ih =>
    intro page synced s hlt hub hlb hfull
    have hpsz : (0 : Int) < (pageSize : Int) := by exact_mod_cast hps
    have hcpos : 0 < min (pageSize : Int) (needed - synced) := lt_min hpsz (by omega)
    have hcast : ((pl + 1 : ℕ) : ℤ) = (pl : ℤ) + 1 := by push_cast; ring
    rw [hcast] at hub hlb
    have hdist : ((pl : ℤ) + 1) * (pageSize : Int) = (pl : ℤ) * (pageSize : Int) + (pageSize : Int) := by
      ring
    rw [hdist] at hub hlb
    by_cases hts : feed address page (min (pageSize : Int) (needed - synced)) = []
    · exfalso
      have hmem : (page, min (pageSize : Int) (needed - synced))
          ∈ (addSyncLoop (concreteOps feed now) address pageSize needed
            (pl + 1) page synced s).requests := by
        rw [addSyncLoop_cops_succ, if_pos hts]
        simp
      have hlen := hfull _ hmem
      rw [hts] at hlen
      have h0 : min (pageSize : Int) (needed - synced) = 0 := by simpa using hlen.symm
      exact absurd h0 (ne_of_gt hcpos)
    · have hmem : (page, min (pageSize : Int) (needed - synced))
          ∈ (addSyncLoop (concreteOps feed now) address pageSize needed
            (pl + 1) page synced s).requests := by
        rw [addSyncLoop_cops_succ, if_neg hts]
        simp
      have hlen := hfull _ hmem
      rw [addSyncLoop_cops_succ, if_neg hts] at hfull ⊢
      dsimp only at hfull ⊢
      dsimp only at hlen
      by_cases hle : needed - synced ≤ (pageSize : Int)
      · -- final page: the request shrinks to the remainder and pl must be 0
        have hcpse : min (pageSize : Int) (needed - synced) = needed - synced :=
          min_eq_right hle
        have hpl0 : pl = 0 := by
          have h2 : (pl : ℤ) * (pageSize : Int) < (pageSize : Int) := by linarith
          by_contra hne
          have h3 : (1 : ℤ) ≤ (pl : ℤ) := by
            have : 1 ≤ pl := Nat.one_le_iff_ne_zero.mpr hne
            exact_mod_cast this
          nlinarith
        subst hpl0
        rw [addSyncLoop_zero] at hfull ⊢
        dsimp only at hfull ⊢
        have hlen2 := hlen.trans hcpse
        refine ⟨by omega, ?_, rfl, saveTransfers_filLastCount address _ now s,
          saveTransfers_rollbacks_le address _ now s, ?_⟩
        · simp only [List.map_cons, List.map_nil, List.sum_cons, List.sum_nil, add_zero]
          exact hcpse
        · intro hrb
          rcases saveTransfers_cases address
              (feed address page (min (pageSize : Int) (needed - synced))) now s hts with
            ⟨_, hft, _⟩ | ⟨_, _, hrbeq⟩
          · rw [hft, List.length_append, buildRows_length]
            omega
          · omega
      · -- full page of size pageSize; recurse
        have hcpse : min (pageSize : Int) (needed - synced) = (pageSize : Int) :=
          min_eq_left (by omega)
        have hlen2 := hlen.trans hcpse
        obtain ⟨ih1, ih2, ih3, ih4, ih5, ih6⟩ := ih (page + 1)
          (synced + (feed address page (min (pageSize : Int) (needed - synced))).length)
          (saveTransfers address
            (feed address page (min (pageSize : Int) (needed - synced))) now s)
          (by omega) (by omega) (by omega)
          (fun pr hpr => hfull pr (List.mem_cons_of_mem _ hpr))
        have hflc := saveTransfers_filLastCount address
          (feed address page (min (pageSize : Int) (needed - synced))) now s
        have hrble := saveTransfers_rollbacks_le address
          (feed address page (min (pageSize : Int) (needed - synced))) now s
        refine ⟨ih1, ?_, ih3, by rw [ih4, hflc], le_trans hrble ih5, ?_⟩
        · simp only [List.map_cons, List.sum_cons]
          rw [ih2]
          linarith [hcpse, hlen2]
        · intro hrb
          have hmid : (saveTransfers address
              (feed address page (min (pageSize : Int) (needed - synced))) now s).rollbacks
              = s.rollbacks := by omega
          rcases saveTransfers_cases address
              (feed address page (min (pageSize : Int) (needed - synced))) now s hts with
            ⟨_, hft, _⟩ | ⟨_, _, hrbeq⟩
          · rw [ih6 (by omega), hft, List.length_append, buildRows_length]
            omega
          · omega


theorem addSync_cops_pos (feed : String → Nat → Int → List Transfer)
    (now : Nat) (address : String) (localCount totalCount : Int)
    (pageSize : Nat) (s : SyncState)
    (h : ¬(totalCount - localCount ≤ 0))
    (herr : (addSyncLoop (concreteOps feed now) address pageSize (totalCount - localCount)
        (((totalCount - localCount).toNat + pageSize - 1) / pageSize) 0 0 s).err = none) :
    addSync (concreteOps feed now) address localCount totalCount pageSize s
      = ⟨{ (addSyncLoop (concreteOps feed now) address pageSize (totalCount - localCount)
              (((totalCount - localCount).toNat + pageSize - 1) / pageSize) 0 0 s).s with
            filLastCount := updateTotalCount address totalCount
              (addSyncLoop (concreteOps feed now) address pageSize (totalCount - localCount)
                (((totalCount - localCount).toNat + pageSize - 1) / pageSize) 0 0 s).s.filLastCount },
          (addSyncLoop (concreteOps feed now) address pageSize (totalCount - localCount)
            (((totalCount - localCount).toNat + pageSize - 1) / pageSize) 0 0 s).requests,
          (addSyncLoop (concreteOps feed now) address pageSize (totalCount - localCount)
            (((totalCount - localCount).toNat + pageSize - 1) / pageSize) 0 0 s).synced,
          none⟩ := by
  simp only [addSync]
  rw [if_neg h, herr]
  rfl

/-- C1: delta correctness of a completed incremental pass.  For a remote
total R and a checkpoint L with L < R, when every requested page returns
exactly the number of records requested (the request trace is the list of
(page, size) pairs issued) and no batch insert was rolled back, the pass
requests exactly R - L records in total across its pages, persists exactly
R - L rows, sets the account checkpoint to R, and finishes with no caught
error. -/
theorem addSync_delta_correct (feed : String → Nat → Int → List Transfer)
    (now : Nat) (address : String) (localCount totalCount : Int)
    (pageSize : Nat) (s : SyncState)
    (hcp : lookupCount address s.filLastCount = some localCount)
    (hlt : localCount < totalCount) (hps : 0 < pageSize)
    (hfull : ∀ pr ∈ (addSync (concreteOps feed now) address localCount totalCount
        pageSize s).requests, ((feed address pr.1 pr.2).length : Int) = pr.2)
    (hclean : (addSync (concreteOps feed now) address localCount totalCount
        pageSize s).s.rollbacks = s.rollbacks) :
    ((addSync (concreteOps feed now) address localCount totalCount pageSize s).requests.map
        Prod.snd).sum = totalCount - localCount
    ∧ (addSync (concreteOps feed now) address localCount totalCount pageSize s).synced
        = totalCount - localCount
    ∧ (addSync (concreteOps feed now) address localCount totalCount
        pageSize s).s.filTransfers.length
        = s.filTransfers.length + (totalCount - localCount).toNat
    ∧ lookupCount address (addSync (concreteOps feed now) address localCount totalCount
        pageSize s).s.filLastCount = some totalCount
    ∧ (addSync (concreteOps feed now) address localCount totalCount pageSize s).err = none := by
  have h : ¬(totalCount - localCount ≤ 0) := by omega
  have hnz : (((totalCount - localCount).toNat : ℤ)) = totalCount - localCount :=
    Int.toNat_of_nonneg (by omega)
  have hdm := Nat.div_add_mod ((totalCount - localCount).toNat + pageSize - 1) pageSize
  have hmod := Nat.mod_lt ((totalCount - localCount).toNat + pageSize - 1) hps
  obtain ⟨q, hq⟩ : ∃ q, ((totalCount - localCount).toNat + pageSize - 1) / pageSize = q :=
    ⟨_, rfl⟩
  rw [hq, Nat.mul_comm] at hdm
  have hgeN : (totalCount - localCount).toNat ≤ q * pageSize := by omega
  have hltN : q * pageSize < (totalCount - localCount).toNat + pageSize := by omega
  have hqps : ((q * pageSize : ℕ) : ℤ) = (q : ℤ) * (pageSize : ℤ) := by push_cast; ring
  have hub : totalCount - localCount ≤ (0 : ℤ) + (q : ℤ) * (pageSize : ℤ) := by
    have h1 := (Nat.cast_le (α := ℤ)).mpr hgeN
    rw [hqps] at h1
    omega
  have hlb : (q : ℤ) * (pageSize : ℤ) < totalCount - localCount - 0 + (pageSize : ℤ) := by
    have h1 := (Nat.cast_lt (α := ℤ)).mpr hltN
    rw [hqps] at h1
    push_cast at h1
    omega
  rw [addSync_requests _ _ _ _ _ _ h, hq] at hfull
  obtain ⟨l1, l2, l3, l4, l5, l6⟩ := addSyncLoop_full_run feed now address pageSize
    (totalCount - localCount) hps q 0 0 s (by omega) hub hlb hfull
  rw [addSync_cops_pos feed now address localCount totalCount pageSize s h
    (by rw [hq]; exact l3)] at hclean ⊢
  rw [hq] at hclean ⊢
  dsimp only at hclean ⊢
  rw [sub_zero] at l2 l6
  refine ⟨l2, l1, l6 hclean, ?_, rfl⟩
  rw [l4]
  exact lookupCount_update_some address totalCount s.filLastCount localCount hcp

/-- Witness for addSync_delta_correct: checkpoint 2, remote total 5, a
feed answering the single request (page 0, size 3) with exactly 3
records; the pass persists 3 rows and moves the checkpoint to 5. -/
theorem addSync_delta_correct_witness :
    lookupCount "f01" wS1.filLastCount = some 2
    ∧ ((2 : Int) < 5)
    ∧ (0 < 100)
    ∧ (((addSync (concreteOps wfeed 7) "f01" 2 5 100 wS1).requests.map Prod.snd).sum
          = 5 - 2
      ∧ (addSync (concreteOps wfeed 7) "f01" 2 5 100 wS1).synced = 5 - 2
      ∧ (addSync (concreteOps wfeed 7) "f01" 2 5 100 wS1).s.filTransfers.length
          = wS1.filTransfers.length + ((5 : Int) - 2).toNat
      ∧ lookupCount "f01" (addSync (concreteOps wfeed 7) "f01" 2 5 100
          wS1).s.filLastCount = some 5
      ∧ (addSync (concreteOps wfeed 7) "f01" 2 5 100 wS1).err = none) :=
  ⟨by decide, by decide, by decide,
   addSync_delta_correct wfeed 7 "f01" 2 5 100 wS1 (by decide) (by decide) (by decide)
     (by decide) (by decide)⟩

end FilecoinSyncer
